import Mathlib

/-!
Verification of the chipi-backend streaming generation subsystem.

This file embeds the Python code of the repository (src/bot.py, src/api.py,
src/db.py) as executable Lean definitions and proves the specified
properties about them.  Python strings are modelled as `List Char`
(Python slicing and length are by code point, which matches), token
sequences as `List Nat`, and the `None`-terminated multiprocessing
queues as `List (Option (List Char))` read in FIFO order.
-/

/-- Python strings, modelled as lists of characters. -/
abbrev Str := List Char

/-! ### Content Splitter (bot.py, `run_generate` lines 173-184 / `generate` lines 114-127) -/

/-- The designated end-of-reasoning marker token id used by `run_generate`:
`response_ids[::-1].index(151668)`. -/
def markerToken : Nat := 151668

/-- Split index computed by `run_generate`:
`index = len(response_ids) - response_ids[::-1].index(151668)` with the
`ValueError` (marker absent) branch giving `index = 0`.  Python's
`list.index` returns the first occurrence, so on the reversed list it
finds the last occurrence of the marker; `List.indexOf` has the same
first-occurrence semantics. -/
def splitIndex (ids : List Nat) : Nat :=
  if markerToken ∈ ids then ids.length - ids.reverse.indexOf markerToken else 0

/-- Python's `.strip("\n")`: drop every leading and trailing newline
character. -/
def stripNL (s : Str) : Str :=
  ((s.dropWhile (fun c => c = '\n')).reverse.dropWhile (fun c => c = '\n')).reverse

/-- The Content Splitter: `thinking_content = decode(response_ids[:index]).strip("\n")`,
`content = decode(response_ids[index:]).strip("\n")`.  The external
tokenizer decode (which drops special tokens) is a parameter. -/
def contentSplit (decode : List Nat → Str) (ids : List Nat) : Str × Str :=
  (stripNL (decode (ids.take (splitIndex ids))),
   stripNL (decode (ids.drop (splitIndex ids))))

/-! ### Wire framing (bot.py `generate_stream` lines 197-202, api.py lines 106 and 271) -/

/-- Python `token.replace("\n", "\\n")` for the single-character pattern:
each literal newline becomes the two characters backslash, `n`. -/
def escapeNL : Str → Str
  | [] => []
  | c :: t => (if c = '\n' then ['\\', 'n'] else [c]) ++ escapeNL t

/-- The frame yielded per fragment by `generate_stream`:
`f"data: {text}\n\n"` after newline escaping. -/
def frameChunk (t : Str) : Str := "data: ".data ++ escapeNL t ++ "\n\n".data

/-- The error frame pushed by `worker_process` on an exception:
`f"data: ERROR: {str(e)}\n\n"`. -/
def errChunk (msg : Str) : Str := "data: ERROR: ".data ++ msg ++ "\n\n".data

/-- The wrapping applied per chunk by `event_generator`:
`response = f"{chunk}\\n\\n\n\n"`, i.e. the chunk followed by the two
literal characters backslash, `n`, twice, and then two real newlines. -/
def encodeChunk (c : Str) : Str := c ++ "\\n\\n".data ++ "\n\n".data

/-- Items travelling on the queues: a text chunk, or `none` as the
terminal sentinel (Python pushes the string or `None`). -/
abbrev Item := Option Str

/-- Checks that a wire unit is a single event-stream event terminated by
exactly one blank line: at least the two terminator characters, the last
two characters are newlines, and no newline occurs before them. -/
def singleBlankTerminated (s : Str) : Bool :=
  decide (2 ≤ s.length) && (s.drop (s.length - 2) == ['\n', '\n'])
    && (s.take (s.length - 2)).all (fun c => c != '\n')

/-! ### Worker and streaming channel (api.py `worker_process` lines 86-108,
bot.py `StreamingToQueue` lines 20-23 and `generate_stream` lines 137-202) -/

/-- Outcome of one engine run inside the worker:
`loadFail`: `bot.load_model()` raises in the worker's main thread;
`genOk`: generation completes, the streamer pushes every finalized text
and then the sentinel (`on_finalized_text` with `stream_end=True`);
`genFail`: `model.generate` raises inside the `run_generate` thread after
some fragments were already streamed, so the sentinel is never pushed. -/
inductive EngineRun
  | loadFail (msg : Str)
  | genOk (frags : List Str)
  | genFail (sofar : List Str)
deriving DecidableEq

/-- Items pushed onto the inner `stream_queue` by `StreamingToQueue`:
`self.queue.put(text)` per finalized text and `self.queue.put(None)` at
`stream_end`.  On a load failure the streamer never runs; on a
generation failure the thread dies before `stream_end`, so no sentinel. -/
def streamQueueItems : EngineRun → List Item
  | EngineRun.loadFail _ => []
  | EngineRun.genOk frags => frags.map some ++ [none]
  | EngineRun.genFail sofar => sofar.map some

/-- The consumer loop of `generate_stream` (lines 197-202): `q.get()`
blocks with no timeout, breaks on `None`, otherwise yields the escaped
frame.  Result: (frames yielded, whether the loop completed).  An
exhausted queue with no sentinel means `q.get()` blocks forever, so the
loop never completes (`false`). -/
def genStreamRun : List Item → List Str × Bool
  | [] => ([], false)
  | none :: _ => ([], true)
  | some t :: rest =>
    let r := genStreamRun rest
    (frameChunk t :: r.1, r.2)

/-- `worker_process` (api.py lines 86-108): pushes every yield of
`generate_stream` onto `output_queue`, then `None`; on an exception in
the worker's main thread it pushes the error frame and `None` and
re-raises.  A generation failure inside the `run_generate` thread is not
an exception in the main thread: the main thread blocks on `q.get()`.
Result: (items pushed onto `output_queue`, whether the worker finished). -/
def workerRun (e : EngineRun) : List Item × Bool :=
  match e with
  | EngineRun.loadFail msg => ([some (errChunk msg), none], true)
  | _ =>
    let r := genStreamRun (streamQueueItems e)
    if r.2 then (r.1.map some ++ [none], true) else (r.1.map some, false)

/-- Checks that no item follows a sentinel in a push sequence. -/
def noneTailOnly : List Item → Bool
  | [] => true
  | none :: rest => rest.isEmpty
  | some _ :: rest => noneTailOnly rest

/-! ### Stream Encoder consumer (api.py `event_generator` lines 261-280) -/

/-- Result of one iteration of the `event_generator` loop. -/
inductive IterStep
  | exitDeadEmpty : IterStep
  | exitSentinel : List Item → IterStep
  | yielded : Str → List Item → IterStep
  | timedOut : IterStep
deriving DecidableEq

/-- One iteration of the consumer loop: first the liveness check
`if not p.is_alive() and output_queue.empty(): break`, then
`output_queue.get(timeout=0.1)`, which breaks on `None`, yields the
wrapped chunk on text, and falls through (`continue`) on `queue.Empty`
after waiting at most one poll interval. -/
def event_generator_iter (alive : Bool) (q : List Item) : IterStep :=
  if alive = false ∧ q = [] then IterStep.exitDeadEmpty
  else
    match q with
    | [] => IterStep.timedOut
    | none :: rest => IterStep.exitSentinel rest
    | some s :: rest => IterStep.yielded (encodeChunk s) rest

/-- Whether an iteration result exits the loop. -/
def iterExits : IterStep → Bool
  | IterStep.exitDeadEmpty => true
  | IterStep.exitSentinel _ => true
  | _ => false

/-- Fueled run of the consumer loop against an environment: `aliveAt k`
is the producer's liveness at iteration `k` and `pushAt k` the items the
producer appends before iteration `k`.  Returns `some (yields, waits)`
when the loop exits within the fuel, where `waits` counts the iterations
that blocked for a full poll interval (an empty `get`). -/
def runLoop (aliveAt : Nat → Bool) (pushAt : Nat → List Item) :
    Nat → Nat → List Item → Option (List Str × Nat)
  | 0, _, _ => none
  | fuel+1, k, q =>
    match event_generator_iter (aliveAt k) (q ++ pushAt k) with
    | IterStep.exitDeadEmpty => some ([], 0)
    | IterStep.exitSentinel _ => some ([], 0)
    | IterStep.timedOut =>
      (runLoop aliveAt pushAt fuel (k+1) (q ++ pushAt k)).map (fun x => (x.1, x.2 + 1))
    | IterStep.yielded s rest =>
      (runLoop aliveAt pushAt fuel (k+1) rest).map (fun x => (s :: x.1, x.2))

/-- The consumer loop run over a fully materialized queue (the producer
pushes nothing further): yields per chunk, stops at the sentinel
(`true`) or when the queue is exhausted with a dead producer (`false`). -/
def event_generator_drain : List Item → List Str × Bool
  | [] => ([], false)
  | none :: _ => ([], true)
  | some s :: rest =>
    let r := event_generator_drain rest
    (encodeChunk s :: r.1, r.2)

/-! ### Interleaving model for persistence ordering (bot.py `run_generate`
lines 159-202, api.py `worker_process` lines 99-104) -/

/-- Events of one successful streamed generation: the generation thread
pushes fragments and the sentinel onto the channel and performs the two
store writes; the consumer side receives items from the channel. -/
inductive GEv
  | push : Item → GEv
  | recv : Item → GEv
  | writeUser : GEv
  | writeAssistant : GEv
deriving DecidableEq, BEq

/-- The generation thread's own event order in `run_generate`: the
streamer pushes every fragment and then the sentinel inside
`model.generate(...)`; only after `generate` returns does the thread
append the user message (line 171) and then the assistant message
(line 190). -/
def run_generate_trace (frags : List Str) : List GEv :=
  frags.map (fun f => GEv.push (some f))
    ++ [GEv.push none, GEv.writeUser, GEv.writeAssistant]

/-- Whether an event belongs to the generation thread (everything except
a consumer receive). -/
def isWorkerEv : GEv → Bool
  | GEv.recv _ => false
  | _ => true

/-- The item received by a consumer receive event, if any. -/
def recvItem : GEv → Option Item
  | GEv.recv x => some x
  | _ => none

/-- FIFO causality: at every receive, strictly more items have been
pushed than received so far. -/
def fifoCausal : Nat → Nat → List GEv → Bool
  | _, _, [] => true
  | p, r, GEv.push _ :: t => fifoCausal (p+1) r t
  | p, r, GEv.recv _ :: t => decide (r < p) && fifoCausal p (r+1) t
  | p, r, _ :: t => fifoCausal p r t

/-- A valid interleaved execution of one successful generation: the
thread events appear in their program order, the consumer receives
exactly the pushed items in order ending with the sentinel, and every
receive happens after the corresponding push. -/
def validSchedule (frags : List Str) (sched : List GEv) : Bool :=
  decide (sched.filter isWorkerEv = run_generate_trace frags)
    && decide (sched.filterMap recvItem = frags.map some ++ [none])
    && fifoCausal 0 0 sched

/-- A concrete valid schedule for one fragment in which both store
writes happen before the consumer receives anything. -/
def lateConsumerSched : List GEv :=
  [GEv.push (some ['h']), GEv.push none, GEv.writeUser, GEv.writeAssistant,
   GEv.recv (some ['h']), GEv.recv none]

/-! ### Conversation store (db.py `ConversationDB`) -/

/-- The database state: `conversations` rows (session_id, title) and
`conversation_details` rows (session_id, role, content, reasoning), both
in insertion order (timestamps default to insertion time). -/
structure DBState where
  convs : List (Str × Str)
  details : List (Str × Str × Str × Str)
deriving DecidableEq

/-- Title derivation used by `create_conversation` (lines 97-101) and
`add_message` (line 165): `p[:100] + "..." if len(p) > 100 else p`. -/
def deriveTitle (p : Str) : Str :=
  if 100 < p.length then p.take 100 ++ "...".data else p

/-- Truncation in `update_conversation_title` (lines 121-122):
`if len(title) > 255: title = title[:252] + "..."`. -/
def truncate255 (t : Str) : Str :=
  if 255 < t.length then t.take 252 ++ "...".data else t

/-- `ConversationDB.update_conversation_title` (lines 119-138): truncate,
update the matching row, report `rowcount > 0`. -/
def update_conversation_title (db : DBState) (sid t : Str) : DBState × Bool :=
  let t' := truncate255 t
  (⟨db.convs.map (fun c => if c.1 = sid then (c.1, t') else c), db.details⟩,
   db.convs.any (fun c => decide (c.1 = sid)))

/-- `ConversationDB.create_conversation` (lines 92-117): a falsy initial
prompt defaults to "New Conversation", the title is the derived
truncation, and the new row is inserted.  The random `uuid4` session id
is passed in as `sid`. -/
def create_conversation (db : DBState) (initialPrompt : Option Str) (sid : Str) :
    DBState × Str :=
  let p := match initialPrompt with
    | none => "New Conversation".data
    | some q => if q.isEmpty then "New Conversation".data else q
  (⟨db.convs ++ [(sid, deriveTitle p)], db.details⟩, sid)

/-- `ConversationDB.add_message` (lines 140-173): a falsy reasoning
becomes the empty string, the row is inserted, and if the role is
"user" and the session now has exactly one row, the title is set to the
derived truncation of the content via `update_conversation_title`. -/
def add_message (db : DBState) (sid role content : Str) (reasoning : Option Str) :
    DBState × Bool :=
  let r := reasoning.getD []
  let db1 : DBState := ⟨db.convs, db.details ++ [(sid, role, content, r)]⟩
  if role = "user".data then
    let count := (db1.details.filter (fun d => decide (d.1 = sid))).length
    if count = 1 then
      ((update_conversation_title db1 sid (deriveTitle content)).1, true)
    else (db1, true)
  else (db1, true)

/-- `ConversationDB.get_conversation` (lines 175-210): the conversation
row and its messages, or `none` when the session is unknown. -/
def get_conversation (db : DBState) (sid : Str) :
    Option ((Str × Str) × List (Str × Str × Str × Str)) :=
  match db.convs.find? (fun c => decide (c.1 = sid)) with
  | none => none
  | some c => some (c, db.details.filter (fun d => decide (d.1 = sid)))

/-- `ConversationDB.delete_conversation` (lines 231-245): delete the row
(details cascade) and report `rowcount > 0`. -/
def delete_conversation (db : DBState) (sid : Str) : DBState × Bool :=
  (⟨db.convs.filter (fun c => decide (c.1 ≠ sid)),
    db.details.filter (fun d => decide (d.1 ≠ sid))⟩,
   db.convs.any (fun c => decide (c.1 = sid)))

/-! ### Session-scoped HTTP endpoints (api.py lines 138-286) -/

/-- Side effects an endpoint can perform. -/
inductive Eff
  | dbRead
  | dbWrite
  | spawnWorker
deriving DecidableEq

/-- Result of an endpoint call: HTTP status, the side effects performed
in order, and the store afterwards. -/
structure EpOut where
  status : Nat
  effs : List Eff
  db : DBState
deriving DecidableEq

/-- `GET /api/conversations/{session_id}` (lines 138-156).  `valid`
abstracts `uuid.UUID(session_id)` succeeding.  When the session is
unknown, `get_conversation` returns `None` and the tuple unpacking
raises `TypeError`, which the generic handler maps to 500. -/
def api_get_conversation (valid : Str → Bool) (db : DBState) (sid : Str) : EpOut :=
  if valid sid then
    match get_conversation db sid with
    | none => ⟨500, [Eff.dbRead], db⟩
    | some _ => ⟨200, [Eff.dbRead], db⟩
  else ⟨400, [], db⟩

/-- `PATCH /api/conversations/{session_id}/title` (lines 159-181). -/
def api_update_conversation_title (valid : Str → Bool) (db : DBState) (sid t : Str) :
    EpOut :=
  if valid sid then
    let r := update_conversation_title db sid t
    if r.2 then ⟨200, [Eff.dbWrite], r.1⟩ else ⟨404, [Eff.dbWrite], r.1⟩
  else ⟨400, [], db⟩

/-- `DELETE /api/conversations/{session_id}` (lines 184-205). -/
def api_delete_conversation (valid : Str → Bool) (db : DBState) (sid : Str) : EpOut :=
  if valid sid then
    let r := delete_conversation db sid
    if r.2 then ⟨200, [Eff.dbWrite], r.1⟩ else ⟨404, [Eff.dbWrite], r.1⟩
  else ⟨400, [], db⟩

/-- `POST /api/conversations/{session_id}/message` (lines 208-229).  On
the valid path the code calls `db.add_message(session_id, role, content)`
with three arguments against the four-parameter signature, raising
`TypeError` before any database work; the generic handler maps it to
500. -/
def api_add_message (valid : Str → Bool) (db : DBState) (sid role content : Str) :
    EpOut :=
  if valid sid then
    if role = "user".data ∨ role = "assistant".data ∨ role = "system".data then
      ⟨500, [], db⟩
    else ⟨400, [], db⟩
  else ⟨400, [], db⟩

/-- `GET /api/conversations/{session_id}/stream` (lines 232-286).  The
handler has no `except HTTPException: raise` clause, so the
`HTTPException(400)` raised on a malformed id is caught by the generic
`except Exception` and re-raised as a 500; on the valid path the worker
process is spawned. -/
def api_stream_response (valid : Str → Bool) (db : DBState) (sid : Str) : EpOut :=
  if valid sid then ⟨200, [Eff.spawnWorker], db⟩
  else ⟨500, [], db⟩

/-! ## Helper lemmas -/

theorem prefixTotal {α : Type _} {l1 l2 l3 : List α} (h1 : l1 <+: l3) (h2 : l2 <+: l3) :
    l1 <+: l2 ∨ l2 <+: l1 :=
  List.prefix_or_prefix_of_prefix h1 h2

/-- In any prefix of `l ++ r`, an element of `l` is present as soon as
an element not occurring in `l` is present. -/
theorem mem_of_later_mem_in_decomp {α : Type _} {l r w : List α} {a b : α}
    (hw : w <+: l ++ r) (ha : a ∈ l) (hb : b ∉ l) (hbw : b ∈ w) : a ∈ w := by
  rcases prefixTotal hw (List.prefix_append l r) with h | h
  · exact absurd (h.subset hbw) hb
  · exact h.subset ha

/-- C1: Content Splitter split at the marker.  For any raw token
sequence whose last marker occurrence sits at position `xs.length`
(i.e. the marker does not occur in the suffix `ys`), the split index is
the position immediately after that occurrence, the reasoning text is
the decode of the tokens up to and including the marker, and the answer
text is the decode of the remaining tokens; since `xs` may itself
contain markers, the last occurrence governs the split. -/
theorem c1_content_splitter_marker_split (decode : List Nat → Str) (xs ys : List Nat)
    (hy : markerToken ∉ ys) :
    splitIndex (xs ++ markerToken :: ys) = xs.length + 1 ∧
    contentSplit decode (xs ++ markerToken :: ys)
      = (stripNL (decode (xs ++ [markerToken])), stripNL (decode ys)) := by
  have hm : markerToken ∈ xs ++ markerToken :: ys := by simp
  have hrev : (xs ++ markerToken :: ys).reverse
      = ys.reverse ++ markerToken :: xs.reverse := by simp
  have hyr : markerToken ∉ ys.reverse := by simpa using hy
  have hidx : (xs ++ markerToken :: ys).reverse.indexOf markerToken = ys.length := by
    rw [hrev, List.indexOf_append_of_not_mem hyr, List.indexOf_cons_self]
    simp
  have hlen : (xs ++ markerToken :: ys).length = xs.length + ys.length + 1 := by
    simp; omega
  have hsi : splitIndex (xs ++ markerToken :: ys) = xs.length + 1 := by
    unfold splitIndex
    rw [if_pos hm, hidx, hlen]
    omega
  refine ⟨hsi, ?_⟩
  have hassoc : xs ++ markerToken :: ys = (xs ++ [markerToken]) ++ ys := by simp
  have hlen2 : (xs ++ [markerToken]).length = xs.length + 1 := by simp
  have htake : (xs ++ markerToken :: ys).take (xs.length + 1) = xs ++ [markerToken] := by
    rw [hassoc, ← hlen2, List.take_left]
  have hdrop : (xs ++ markerToken :: ys).drop (xs.length + 1) = ys := by
    rw [hassoc, ← hlen2, List.drop_left]
  unfold contentSplit
  rw [hsi, htake, hdrop]

/-- Witness for C1, with the marker occurring twice: the last occurrence
(position 2) governs the split. -/
theorem c1_content_splitter_marker_split_witness :
    markerToken ∉ ([7, 8] : List Nat) ∧
    splitIndex ([151668, 5] ++ markerToken :: [7, 8]) = 3 ∧
    contentSplit (fun l => List.replicate l.length 'x')
        ([151668, 5] ++ markerToken :: [7, 8])
      = (stripNL (List.replicate 3 'x'), stripNL (List.replicate 2 'x')) := by
  have h := c1_content_splitter_marker_split (fun l => List.replicate l.length 'x')
    [151668, 5] [7, 8] (by decide)
  exact ⟨by decide, h.1, h.2⟩

/-- C2: Content Splitter marker-absent case.  When the marker does not
occur, the split index is 0, the reasoning text is empty and the answer
text is the decode of the whole sequence; `splitIndex` and
`contentSplit` are total functions, so this is a normal outcome, not a
failure. -/
theorem c2_content_splitter_marker_absent (decode : List Nat → Str) (ids : List Nat)
    (h : markerToken ∉ ids) (hdec : decode [] = []) :
    splitIndex ids = 0 ∧ contentSplit decode ids = ([], stripNL (decode ids)) := by
  have hsi : splitIndex ids = 0 := by
    unfold splitIndex
    rw [if_neg h]
  refine ⟨hsi, ?_⟩
  unfold contentSplit
  rw [hsi]
  simp [hdec, stripNL]

/-- Witness for C2 on a concrete marker-free sequence. -/
theorem c2_content_splitter_marker_absent_witness :
    markerToken ∉ ([1, 2, 3] : List Nat) ∧
    splitIndex [1, 2, 3] = 0 ∧
    contentSplit (fun _ => ([] : Str)) [1, 2, 3] = ([], []) := by
  have h := c2_content_splitter_marker_absent (fun _ => ([] : Str)) [1, 2, 3]
    (by decide) rfl
  exact ⟨by decide, h.1, h.2⟩

/-- One-step unfolding of the consumer loop at a yielding iteration. -/
theorem runLoop_yield (aliveAt : Nat → Bool) (pushAt : Nat → List Item)
    (fuel k : Nat) (s : Str) (t : List Item) (hp : pushAt k = []) :
    runLoop aliveAt pushAt (fuel + 1) k (some s :: t)
      = (runLoop aliveAt pushAt fuel (k + 1) t).map
          (fun x => (encodeChunk s :: x.1, x.2)) := by
  have hiter : event_generator_iter (aliveAt k) ((some s :: t) ++ pushAt k)
      = IterStep.yielded (encodeChunk s) t := by
    simp [event_generator_iter, hp]
  conv_lhs => rw [runLoop]
  rw [hiter]

/-- C3: Consumer loop termination.  Part one: an iteration of the
`event_generator` loop exits exactly when the sentinel is at the head of
the channel, or the producer is dead and the channel is empty.  Part
two: in any run in which the producer is dead from step `d` on (and so
pushes nothing further, in particular no sentinel), the loop terminates
within `q.length + 1` further iterations with zero full-timeout waits:
the only wait chargeable to the death is the single poll that straddles
it, so the consumer terminates within one poll interval of the
producer's death. -/
theorem c3_consumer_loop_termination :
    (∀ (alive : Bool) (q : List Item),
        iterExits (event_generator_iter alive q) = true ↔
          ((alive = false ∧ q = []) ∨ ∃ rest, q = none :: rest))
    ∧ ∀ (aliveAt : Nat → Bool) (pushAt : Nat → List Item) (d : Nat) (q : List Item),
        (∀ k, d ≤ k → aliveAt k = false ∧ pushAt k = []) →
        ∃ out, runLoop aliveAt pushAt (q.length + 1) d q = some (out, 0) := by
  constructor
  · intro alive q
    cases alive <;> rcases q with _ | ⟨_ | s, rest⟩ <;>
      simp [event_generator_iter, iterExits]
  · intro aliveAt pushAt d q h
    induction q generalizing d with
    | nil =>
      refine ⟨[], ?_⟩
      have h1 := h d (Nat.le_refl d)
      simp [runLoop, event_generator_iter, h1.1, h1.2]
    | cons x t ih =>
      cases x with
      | none =>
        refine ⟨[], ?_⟩
        have h1 := h d (Nat.le_refl d)
        simp [runLoop, event_generator_iter, h1.1, h1.2]
      | some s =>
        have h1 := h d (Nat.le_refl d)
        obtain ⟨out, hout⟩ := ih (d + 1) (fun k hk => h k (by omega))
        refine ⟨encodeChunk s :: out, ?_⟩
        have hl : (some s :: t).length + 1 = t.length + 1 + 1 := by simp
        rw [hl, runLoop_yield aliveAt pushAt (t.length + 1) d s t h1.2, hout]
        rfl

/-- Witness for C3: a dead producer leaving one fragment and no sentinel. -/
theorem c3_consumer_loop_termination_witness :
    ∃ out, runLoop (fun _ => false) (fun _ => [])
        (([some (['h'] : Str)] : List Item).length + 1) 0 [some ['h']]
      = some (out, 0) :=
  c3_consumer_loop_termination.2 (fun _ => false) (fun _ => []) 0
    [some ['h']] (fun _ _ => ⟨rfl, rfl⟩)

/-- The `generate_stream` loop over a completed streamer run frames
every fragment in order and completes at the sentinel. -/
theorem genStreamRun_append_sentinel (frags : List Str) :
    genStreamRun (frags.map some ++ [none]) = (frags.map frameChunk, true) := by
  induction frags with
  | nil => rfl
  | cons f t ih => simp [genStreamRun, ih]

/-- The `generate_stream` loop over a sentinel-free queue frames the
fragments but never completes (`q.get()` blocks forever). -/
theorem genStreamRun_map_some (sofar : List Str) :
    genStreamRun (sofar.map some) = (sofar.map frameChunk, false) := by
  induction sofar with
  | nil => rfl
  | cons f t ih => simp [genStreamRun, ih]

/-- Evaluation of the worker on a successful generation. -/
theorem workerRun_genOk (frags : List Str) :
    workerRun (EngineRun.genOk frags)
      = ((frags.map frameChunk).map some ++ [none], true) := by
  simp [workerRun, streamQueueItems, genStreamRun_append_sentinel]

/-- Evaluation of the worker on a generation-thread failure: the partial
frames are pushed, no error fragment and no sentinel follow, and the
worker never finishes. -/
theorem workerRun_genFail (sofar : List Str) :
    workerRun (EngineRun.genFail sofar)
      = ((sofar.map frameChunk).map some, false) := by
  simp [workerRun, streamQueueItems, genStreamRun_map_some]

/-- The encoder drain of a sentinel-terminated queue wraps every chunk
in order and ends cleanly at the sentinel. -/
theorem event_generator_drain_append_sentinel (frames : List Str) :
    event_generator_drain (frames.map some ++ [none])
      = (frames.map encodeChunk, true) := by
  induction frames with
  | nil => rfl
  | cons f t ih => simp [event_generator_drain, ih]

/-- No item follows the sentinel in a sentinel-terminated push list. -/
theorem noneTailOnly_map_some_append (l : List Str) :
    noneTailOnly (l.map some ++ [none]) = true := by
  induction l with
  | nil => rfl
  | cons f t ih => simpa [noneTailOnly] using ih

/-- A push list of data chunks only trivially has nothing after a
sentinel. -/
theorem noneTailOnly_map_some (l : List Str) :
    noneTailOnly (l.map some) = true := by
  induction l with
  | nil => rfl
  | cons f t ih => simpa [noneTailOnly] using ih

/-- A sentinel-terminated push list ends with the sentinel. -/
theorem getLast?_map_some_append (l : List Str) :
    (l.map some ++ [none] : List Item).getLast? = some none := by
  simp

/-- Every item of a mapped data list is a data chunk. -/
theorem all_isSome_map_some (l : List Str) :
    (l.map some : List Item).all (fun i => i.isSome) = true := by
  simp

/-- C4: Streaming Channel ordering.  For every engine run the worker's
push sequence never contains an item after a sentinel, a completed
worker's last pushed item is the sentinel, and on the success path the
encoder drain delivers exactly the produced fragments, each framed and
wrapped, in FIFO production order, ending cleanly at the sentinel. -/
theorem c4_channel_fifo_sentinel_last (e : EngineRun) (frags : List Str) :
    noneTailOnly (workerRun e).1 = true
    ∧ ((workerRun e).2 = true → (workerRun e).1.getLast? = some none)
    ∧ event_generator_drain ((workerRun (EngineRun.genOk frags)).1)
        = (frags.map (fun f => encodeChunk (frameChunk f)), true) := by
  refine ⟨?_, ?_, ?_⟩
  · cases e with
    | loadFail msg => rfl
    | genOk gs => rw [workerRun_genOk]; exact noneTailOnly_map_some_append _
    | genFail gs => rw [workerRun_genFail]; exact noneTailOnly_map_some _
  · cases e with
    | loadFail msg => intro _; rfl
    | genOk gs => intro _; rw [workerRun_genOk]; exact getLast?_map_some_append _
    | genFail gs =>
      intro hc
      rw [workerRun_genFail] at hc
      simp at hc
  · rw [workerRun_genOk, event_generator_drain_append_sentinel, List.map_map]
    rfl

/-- Witness for C4: a completed error-path worker ends with the
sentinel, and a one-fragment success stream is delivered in order. -/
theorem c4_channel_fifo_sentinel_last_witness :
    (workerRun (EngineRun.loadFail ['m'])).1.getLast? = some none
    ∧ event_generator_drain ((workerRun (EngineRun.genOk [['h']])).1)
        = ([['h']].map (fun f => encodeChunk (frameChunk f)), true) :=
  ⟨(c4_channel_fifo_sentinel_last (EngineRun.loadFail ['m']) []).2.1 (by decide),
   (c4_channel_fifo_sentinel_last (EngineRun.genOk [['h']]) [['h']]).2.2⟩

/-- Counterexample for C6 as stated: in a run where generation raises
inside the `run_generate` thread after one fragment, the worker pushes
no error fragment and no sentinel (every pushed item is a data chunk)
and never terminates (the completion flag is `false`): the exception
dies with the thread, and `worker_process`'s main thread blocks forever
on `q.get()`. -/
theorem c6_engine_failure_cex :
    workerRun (EngineRun.genFail [['p']]) = ([some ("data: p\n\n".data)], false)
    ∧ (workerRun (EngineRun.genFail [['p']])).1.all (fun i => i.isSome) = true := by
  constructor
  · decide
  · decide

/-- C6 amended: when the engine fails to load (an exception in the
worker's main thread), the worker pushes exactly one error fragment
carrying the failure message followed by the terminal sentinel and
terminates, and the encoder drain delivers the error frame and closes
cleanly; when generation raises inside the generation thread, however,
only the already-streamed frames are pushed — no error fragment, no
sentinel — and the worker never terminates. -/
theorem c6_engine_failure_amended (msg : Str) (sofar : List Str) :
    workerRun (EngineRun.loadFail msg) = ([some (errChunk msg), none], true)
    ∧ event_generator_drain (workerRun (EngineRun.loadFail msg)).1
        = ([encodeChunk (errChunk msg)], true)
    ∧ workerRun (EngineRun.genFail sofar) = ((sofar.map frameChunk).map some, false)
    ∧ (workerRun (EngineRun.genFail sofar)).1.all (fun i => i.isSome) = true := by
  refine ⟨rfl, rfl, workerRun_genFail sofar, ?_⟩
  rw [workerRun_genFail]
  exact all_isSome_map_some _

/-- Escaping removes every raw newline from a fragment. -/
theorem escapeNL_all_ne_newline (t : Str) :
    (escapeNL t).all (fun c => c != '\n') = true := by
  induction t with
  | nil => rfl
  | cons c t ih =>
    by_cases hc : c = '\n' <;> simp [escapeNL, hc, List.all_append, ih]

/-- A newline-free body followed by the two terminator newlines is a
single blank-line-terminated event. -/
theorem singleBlankTerminated_append (L : Str)
    (hL : L.all (fun c => c != '\n') = true) :
    singleBlankTerminated (L ++ ['\n', '\n']) = true := by
  unfold singleBlankTerminated
  have hlen : (L ++ ['\n', '\n']).length = L.length + 2 := by simp
  have h2 : L.length + 2 - 2 = L.length := by omega
  rw [hlen, h2, List.take_left, List.drop_left]
  simp [hL]

/-- A body containing a newline followed by the two terminator newlines
is not a single blank-line-terminated event. -/
theorem singleBlankTerminated_append_false (L : Str)
    (hL : L.all (fun c => c != '\n') = false) :
    singleBlankTerminated (L ++ ['\n', '\n']) = false := by
  unfold singleBlankTerminated
  have hlen : (L ++ ['\n', '\n']).length = L.length + 2 := by simp
  have h2 : L.length + 2 - 2 = L.length := by omega
  rw [hlen, h2, List.take_left]
  simp [hL]

/-- The generator frame is a newline-free data line plus terminator. -/
theorem frameChunk_eq (t : Str) :
    frameChunk t = ("data: ".data ++ escapeNL t) ++ ['\n', '\n'] := by
  simp [frameChunk]

/-- The generator's data line contains no raw newline. -/
theorem frame_line_all_ne_newline (t : Str) :
    ("data: ".data ++ escapeNL t).all (fun c => c != '\n') = true := by
  rw [List.all_append]
  simp [escapeNL_all_ne_newline]

/-- The error frame is a data line carrying the raw message plus the
two terminator newlines: `worker_process` interpolates `str(e)` with no
escaping. -/
theorem errChunk_eq (msg : Str) :
    errChunk msg = ("data: ERROR: ".data ++ msg) ++ ['\n', '\n'] := by
  simp [errChunk]

/-- Counterexample for C7 as stated: the bytes actually delivered per
fragment are the generator's frame plus a junk literal backslash-n
backslash-n and a second blank line, so the per-fragment wire unit is
not terminated by exactly one blank line (the generator's own frame
is); moreover an error fragment carries its failure message raw, so a
newline inside the message reaches the wire unescaped and even the bare
error frame is not a single blank-line-terminated event. -/
theorem c7_wire_framing_cex :
    encodeChunk (frameChunk ['h', 'i']) = "data: hi\n\n\\n\\n\n\n".data
    ∧ singleBlankTerminated (encodeChunk (frameChunk ['h', 'i'])) = false
    ∧ singleBlankTerminated (frameChunk ['h', 'i']) = true
    ∧ errChunk ['x', '\n', 'y'] = "data: ERROR: x\ny\n\n".data
    ∧ singleBlankTerminated (errChunk ['x', '\n', 'y']) = false := by
  refine ⟨by decide, by decide, by decide, by decide, by decide⟩

/-- C7 amended: for data fragments, newline escaping holds as stated
and the generator's frame is one event terminated by exactly one blank
line; error fragments are framed the same way but carry the raw failure
message with no escaping, so their frame is a single
blank-line-terminated event exactly when the message itself is
newline-free; and the encoder wraps every chunk — data or error — with
a literal backslash-n backslash-n and one additional blank line, so the
per-fragment bytes delivered to the HTTP client are never terminated by
exactly one blank line.  The sentinel produces no frame: its receipt
ends the drain with no output. -/
theorem c7_wire_framing_amended (t msg : Str) :
    (escapeNL t).all (fun c => c != '\n') = true
    ∧ singleBlankTerminated (frameChunk t) = true
    ∧ (msg.all (fun c => c != '\n') = false →
        singleBlankTerminated (errChunk msg) = false)
    ∧ (msg.all (fun c => c != '\n') = true →
        singleBlankTerminated (errChunk msg) = true)
    ∧ encodeChunk (frameChunk t) = frameChunk t ++ "\\n\\n".data ++ "\n\n".data
    ∧ singleBlankTerminated (encodeChunk (frameChunk t)) = false
    ∧ singleBlankTerminated (encodeChunk (errChunk msg)) = false
    ∧ event_generator_drain [none] = ([], true) := by
  refine ⟨escapeNL_all_ne_newline t, ?_, ?_, ?_, rfl, ?_, ?_, rfl⟩
  · rw [frameChunk_eq]
    exact singleBlankTerminated_append _ (frame_line_all_ne_newline t)
  · intro h
    rw [errChunk_eq]
    apply singleBlankTerminated_append_false
    rw [List.all_append]
    simp [h]
  · intro h
    rw [errChunk_eq]
    apply singleBlankTerminated_append
    rw [List.all_append, h, Bool.and_true]
    decide
  · have he : encodeChunk (frameChunk t)
        = (frameChunk t ++ "\\n\\n".data) ++ ['\n', '\n'] := by
      simp [encodeChunk]
    rw [he]
    apply singleBlankTerminated_append_false
    rw [List.all_append]
    have hfr : (frameChunk t).all (fun c => c != '\n') = false := by
      rw [frameChunk_eq, List.all_append]
      simp
    simp [hfr]
  · have he : encodeChunk (errChunk msg)
        = (errChunk msg ++ "\\n\\n".data) ++ ['\n', '\n'] := by
      simp [encodeChunk]
    rw [he]
    apply singleBlankTerminated_append_false
    rw [List.all_append]
    have herr : (errChunk msg).all (fun c => c != '\n') = false := by
      rw [errChunk_eq, List.all_append]
      simp
    simp [herr]

/-- Witness for C7 amended: an error message containing a newline is
delivered unescaped (its frame is not a single blank-line-terminated
event), while a newline-free error message frames cleanly. -/
theorem c7_wire_framing_amended_witness :
    singleBlankTerminated (errChunk ['x', '\n', 'y']) = false
    ∧ singleBlankTerminated (errChunk ['x']) = true :=
  ⟨(c7_wire_framing_amended ['h'] ['x', '\n', 'y']).2.2.1 (by decide),
   (c7_wire_framing_amended ['h'] ['x']).2.2.2.1 (by decide)⟩

/-- The generation thread's trace decomposed: all channel pushes first,
then the two writes. -/
theorem run_generate_trace_eq (frags : List Str) :
    run_generate_trace frags
      = ((frags.map some ++ [none]).map GEv.push)
          ++ [GEv.writeUser, GEv.writeAssistant] := by
  simp [run_generate_trace, List.map_map, Function.comp]

/-- Neither write event is a channel push. -/
theorem write_not_mem_map_push (l : List Item) :
    GEv.writeUser ∉ l.map GEv.push ∧ GEv.writeAssistant ∉ l.map GEv.push := by
  constructor <;>
    · intro h
      rcases List.mem_map.1 h with ⟨i, _, hi⟩
      exact GEv.noConfusion hi

/-- Counterexample for C5 as stated: `lateConsumerSched` is a valid
execution of a successful one-fragment generation in which both store
writes (so both messages become visible) happen strictly before the
consumer receives anything — in particular before the terminal sentinel
is delivered to the consumer.  The code does not synchronize the
`run_generate` thread's writes with the consumer side. -/
theorem c5_persistence_ordering_cex :
    validSchedule [['h']] lateConsumerSched = true
    ∧ (lateConsumerSched.take 4).contains GEv.writeUser = true
    ∧ (lateConsumerSched.take 4).contains GEv.writeAssistant = true
    ∧ (lateConsumerSched.take 4).contains (GEv.recv none) = false := by
  refine ⟨by decide, by decide, by decide, by decide⟩

/-- C5 amended: in every valid execution of a successful generation,
once a prefix of the run contains the user write it already contains the
sentinel push and every fragment push (both messages are persisted only
after generation fully completed and the sentinel was pushed onto the
channel), and any prefix containing the assistant write contains the
user write (the user message is appended first); delivery of the
sentinel to the consumer, however, is not ordered with the writes. -/
theorem c5_persistence_ordering_amended (frags : List Str) (sched s1 s2 : List GEv)
    (hv : validSchedule frags sched = true) (hsp : sched = s1 ++ s2) :
    (GEv.writeUser ∈ s1 →
      GEv.push none ∈ s1 ∧ ∀ f ∈ frags, GEv.push (some f) ∈ s1)
    ∧ (GEv.writeAssistant ∈ s1 → GEv.writeUser ∈ s1) := by
  have hfil : sched.filter isWorkerEv = run_generate_trace frags := by
    unfold validSchedule at hv
    simp only [Bool.and_eq_true, decide_eq_true_eq] at hv
    exact hv.1.1
  have hw : (s1.filter isWorkerEv) <+: run_generate_trace frags := by
    refine ⟨s2.filter isWorkerEv, ?_⟩
    rw [← List.filter_append, ← hsp, hfil]
  constructor
  · intro hu
    have hu' : GEv.writeUser ∈ s1.filter isWorkerEv :=
      List.mem_filter.2 ⟨hu, rfl⟩
    have htr : run_generate_trace frags
        = ((frags.map some ++ [none]).map GEv.push)
            ++ [GEv.writeUser, GEv.writeAssistant] := run_generate_trace_eq frags
    constructor
    · have ha : GEv.push none ∈ (frags.map some ++ [none]).map GEv.push := by simp
      have hb := (write_not_mem_map_push (frags.map some ++ [none])).1
      exact List.mem_of_mem_filter
        (mem_of_later_mem_in_decomp (htr ▸ hw) ha hb hu')
    · intro f hf
      have ha : GEv.push (some f) ∈ (frags.map some ++ [none]).map GEv.push := by
        exact List.mem_map.2 ⟨some f, by simp [hf], rfl⟩
      have hb := (write_not_mem_map_push (frags.map some ++ [none])).1
      exact List.mem_of_mem_filter
        (mem_of_later_mem_in_decomp (htr ▸ hw) ha hb hu')
  · intro hA
    have hA' : GEv.writeAssistant ∈ s1.filter isWorkerEv :=
      List.mem_filter.2 ⟨hA, rfl⟩
    have htr2 : run_generate_trace frags
        = (((frags.map some ++ [none]).map GEv.push) ++ [GEv.writeUser])
            ++ [GEv.writeAssistant] := by
      rw [run_generate_trace_eq]
      simp
    have ha : GEv.writeUser
        ∈ ((frags.map some ++ [none]).map GEv.push) ++ [GEv.writeUser] := by simp
    have hb : GEv.writeAssistant
        ∉ ((frags.map some ++ [none]).map GEv.push) ++ [GEv.writeUser] := by
      intro h
      rcases List.mem_append.1 h with h | h
      · exact (write_not_mem_map_push (frags.map some ++ [none])).2 h
      · simp at h
    exact List.mem_of_mem_filter
      (mem_of_later_mem_in_decomp (htr2 ▸ hw) ha hb hA')

/-- Witness for C5 amended: instantiated on the late-consumer schedule,
the prefix holding the user write already holds the sentinel push. -/
theorem c5_persistence_ordering_amended_witness :
    GEv.push none
      ∈ ([GEv.push (some ['h']), GEv.push none, GEv.writeUser] : List GEv) :=
  ((c5_persistence_ordering_amended [['h']] lateConsumerSched
      [GEv.push (some ['h']), GEv.push none, GEv.writeUser]
      [GEv.writeAssistant, GEv.recv (some ['h']), GEv.recv none]
      (by decide) (by decide)).1 (by simp)).1

/-- Counterexample for C8 as stated: the stream endpoint, invoked with a
session id the UUID parser rejects, returns HTTP 500 — not 400 — because
its handler lacks the `except HTTPException: raise` clause and wraps the
400 in the generic 500; no side effect is performed and the store is
unchanged. -/
theorem c8_validation_cex :
    api_stream_response (fun _ => false) ⟨[], []⟩ ['x']
      = ⟨500, [], ⟨[], []⟩⟩ := rfl

/-- C8 amended: on a session id that is not UUID-shaped, the get,
title-update, delete and add-message endpoints return HTTP 400, while
the stream endpoint returns HTTP 500 (its generic handler swallows the
400); in all five cases no storage access and no worker dispatch occurs
and the Conversation Store is unchanged. -/
theorem c8_validation_amended (valid : Str → Bool) (db : DBState)
    (sid role content t : Str) (h : valid sid = false) :
    api_get_conversation valid db sid = ⟨400, [], db⟩
    ∧ api_update_conversation_title valid db sid t = ⟨400, [], db⟩
    ∧ api_delete_conversation valid db sid = ⟨400, [], db⟩
    ∧ api_add_message valid db sid role content = ⟨400, [], db⟩
    ∧ api_stream_response valid db sid = ⟨500, [], db⟩ := by
  refine ⟨?_, ?_, ?_, ?_, ?_⟩ <;>
    simp [api_get_conversation, api_update_conversation_title,
      api_delete_conversation, api_add_message, api_stream_response, h]

/-- Witness for C8 amended on a concrete malformed id. -/
theorem c8_validation_amended_witness :
    api_get_conversation (fun _ => false) ⟨[], []⟩ ['x'] = ⟨400, [], ⟨[], []⟩⟩
    ∧ api_stream_response (fun _ => false) ⟨[], []⟩ ['x'] = ⟨500, [], ⟨[], []⟩⟩ :=
  ⟨(c8_validation_amended (fun _ => false) ⟨[], []⟩ ['x'] [] [] [] rfl).1,
   (c8_validation_amended (fun _ => false) ⟨[], []⟩ ['x'] [] [] [] rfl).2.2.2.2⟩

/-- Counterexample for C9 as stated: a conversation created with the
explicit title "My Title" has its title overwritten by the derivation
from the first user message "hello" — the auto-derivation is not
conditional on the title having been left unset. -/
theorem c9_title_derivation_cex :
    (create_conversation ⟨[], []⟩ (some "My Title".data) "s".data).1.convs
      = [("s".data, "My Title".data)]
    ∧ (add_message (create_conversation ⟨[], []⟩ (some "My Title".data) "s".data).1
          "s".data "user".data "hello".data none).1.convs
      = [("s".data, "hello".data)] := by
  refine ⟨by decide, by decide⟩

/-- C9 amended: the title is derived by truncation exactly as stated
(an input longer than 100 characters yields its first 100 characters
plus "...", so a 150-character prompt yields a 103-character title; an
input of at most 100 characters is used unchanged), but the
auto-derivation from the first user message happens unconditionally
whenever the first stored message of a session has role "user",
overwriting any explicitly set title. -/
theorem c9_title_derivation_amended (p content sid : Str) (r : Option Str)
    (convs : List (Str × Str)) (det : List (Str × Str × Str × Str)) :
    (100 < p.length → deriveTitle p = p.take 100 ++ "...".data)
    ∧ (p.length = 150 → (deriveTitle p).length = 103)
    ∧ (p.length ≤ 100 → deriveTitle p = p)
    ∧ (p.isEmpty = false →
        (create_conversation ⟨convs, det⟩ (some p) sid).1.convs
          = convs ++ [(sid, deriveTitle p)])
    ∧ ((det.filter (fun d => decide (d.1 = sid))).length = 0 →
        (add_message ⟨convs, det⟩ sid "user".data content r).1.convs
          = convs.map (fun c =>
              if c.1 = sid then (c.1, truncate255 (deriveTitle content)) else c)) := by
  refine ⟨?_, ?_, ?_, ?_, ?_⟩
  · intro h
    unfold deriveTitle
    rw [if_pos h]
  · intro h
    unfold deriveTitle
    rw [if_pos (by omega)]
    have h3 : ("...".data : Str).length = 3 := rfl
    simp [List.length_take, h, h3]
  · intro h
    unfold deriveTitle
    rw [if_neg (by omega)]
  · intro h
    simp [create_conversation, h]
  · intro h
    unfold add_message
    rw [if_pos rfl]
    have hcount : ((det ++ [(sid, "user".data, content, r.getD [])]).filter
        (fun d => decide (d.1 = sid))).length = 1 := by
      rw [List.filter_append, List.length_append, h]
      simp
    simp only [hcount, if_pos rfl]
    simp [update_conversation_title]

set_option maxRecDepth 8000 in
/-- Witness for C9 amended: a 150-character prompt gives a
103-character title, and the first user message of a session overwrites
the existing explicit title. -/
theorem c9_title_derivation_amended_witness :
    (deriveTitle (List.replicate 150 'a')).length = 103
    ∧ (add_message ⟨[("s".data, "My Title".data)], []⟩ "s".data "user".data
          "hello".data none).1.convs
      = [("s".data, "My Title".data)].map (fun c =>
          if c.1 = "s".data then (c.1, truncate255 (deriveTitle "hello".data)) else c) :=
  ⟨(c9_title_derivation_amended (List.replicate 150 'a') "hello".data "s".data none
      [("s".data, "My Title".data)] []).2.1 (by decide),
   (c9_title_derivation_amended "x".data "hello".data "s".data none
      [("s".data, "My Title".data)] []).2.2.2.2 (by decide)⟩

/-- C10: title-update truncation.  A title longer than 255 characters is
silently truncated to its first 252 characters plus "..." (exactly 255
characters); a title of at most 255 characters is stored unchanged; the
operation's reported success depends only on whether the session exists,
never on the title length (long titles are not rejected), and the
stored row carries the truncated title. -/
theorem c10_title_update_truncation (t title0 sid : Str) (db : DBState) :
    (255 < t.length →
      truncate255 t = t.take 252 ++ "...".data ∧ (truncate255 t).length = 255)
    ∧ (t.length ≤ 255 → truncate255 t = t)
    ∧ ((sid, title0) ∈ db.convs →
        (sid, truncate255 t) ∈ (update_conversation_title db sid t).1.convs)
    ∧ (update_conversation_title db sid t).2
        = db.convs.any (fun c => decide (c.1 = sid)) := by
  refine ⟨?_, ?_, ?_, rfl⟩
  · intro h
    constructor
    · unfold truncate255
      rw [if_pos h]
    · unfold truncate255
      rw [if_pos h]
      have h3 : ("...".data : Str).length = 3 := rfl
      simp [List.length_take, h3]
      omega
  · intro h
    unfold truncate255
    rw [if_neg (by omega)]
  · intro h
    unfold update_conversation_title
    refine List.mem_map.2 ⟨(sid, title0), h, ?_⟩
    simp

set_option maxRecDepth 8000 in
/-- Witness for C10 on a 256-character title and an existing session. -/
theorem c10_title_update_truncation_witness :
    truncate255 (List.replicate 256 'a')
      = (List.replicate 256 'a').take 252 ++ "...".data
    ∧ (truncate255 (List.replicate 256 'a')).length = 255
    ∧ (['s'], truncate255 (List.replicate 256 'a'))
        ∈ (update_conversation_title ⟨[(['s'], ['o'])], []⟩ ['s']
            (List.replicate 256 'a')).1.convs :=
  ⟨((c10_title_update_truncation (List.replicate 256 'a') ['o'] ['s']
      ⟨[(['s'], ['o'])], []⟩).1 (by decide)).1,
   ((c10_title_update_truncation (List.replicate 256 'a') ['o'] ['s']
      ⟨[(['s'], ['o'])], []⟩).1 (by decide)).2,
   (c10_title_update_truncation (List.replicate 256 'a') ['o'] ['s']
      ⟨[(['s'], ['o'])], []⟩).2.2.1 (by simp)⟩
